import Mathlib

/-!
Shallow embedding of the pdsl combinator library (src/packages/pdsl/helpers.js)
and its grammar table (the operator-precedence table of the parser module).

JavaScript runtime values are modelled by the inductive `JSVal`.  Numbers are
modelled as integers (the repository's predicates only compare and test
equality; NaN and floating-point representation issues are outside the model).
Symbols and functions carry a numeric identity, mirroring the fact that two
independently produced symbols (or functions) are never strictly equal.
Reference identity of freshly constructed arrays and objects is modelled as
inequality: `strictEq` on two structured values is `false`, the behaviour of
`===` on independently produced arrays/objects; no claim below depends on
comparing a structured value with itself by reference.
-/

namespace PDSL

inductive JSVal where
  | vnull
  | vundefined
  | vbool (b : Bool)
  | vnum (n : Int)
  | vstr (s : String)
  | vsym (id : Nat)
  | vfn (id : Nat)
  | varr (elems : List JSVal)
  | vobj (fields : List (String × JSVal))
deriving Repr

open JSVal

/-- JavaScript strict equality `===` restricted to the model: value equality on
primitives, identity on symbols and functions, and `false` between
independently produced structured values (arrays/objects). -/
def strictEq : JSVal → JSVal → Bool
  | vnull, vnull => true
  | vundefined, vundefined => true
  | vbool a, vbool b => a == b
  | vnum a, vnum b => a == b
  | vstr a, vstr b => a == b
  | vsym a, vsym b => a == b
  | vfn a, vfn b => a == b
  | _, _ => false

/-- The scalar (non-function, non-structural) values: numbers, booleans, the
two absence-of-value sentinels and unique symbols. -/
def isScalar : JSVal → Bool
  | vnull => true
  | vundefined => true
  | vbool _ => true
  | vnum _ => true
  | vsym _ => true
  | _ => false

/-- JavaScript truthiness, `Boolean(a)`. -/
def truthy : JSVal → Bool
  | vnull => false
  | vundefined => false
  | vbool b => b
  | vnum n => n != 0
  | vstr s => s != ""
  | vsym _ => true
  | vfn _ => true
  | varr _ => true
  | vobj _ => true

/-- `typeof a` as a string tag; `typeof null` is `"object"` and arrays share
the `"object"` tag with plain objects. -/
def jsTypeof : JSVal → String
  | vnull => "object"
  | vundefined => "undefined"
  | vbool _ => "boolean"
  | vnum _ => "number"
  | vstr _ => "string"
  | vsym _ => "symbol"
  | vfn _ => "function"
  | varr _ => "object"
  | vobj _ => "object"

/-- `Array.isArray`. -/
def isArray : JSVal → Bool
  | varr _ => true
  | _ => false

/-- Property read `a[key]`; objects are association lists with unique keys
(JavaScript object literals de-duplicate keys), non-objects yield
`undefined` for the properties the claims exercise. -/
def getProp (a : JSVal) (key : String) : JSVal :=
  match a with
  | vobj fields =>
    match fields.find? (fun f => f.1 == key) with
    | some f => f.2
    | none => vundefined
  | _ => vundefined

/-- An argument handed to a combinator: either a genuine predicate function or
a plain (non-function) value, the two cases `typeof value === "function"`
distinguishes in `val`. -/
inductive PredArg where
  | fn (p : JSVal → Bool)
  | value (v : JSVal)

/-- helpers.js `val`: a function is returned unchanged, any other value
becomes the strict-equality test `a => a === value`. -/
def val : PredArg → JSVal → Bool
  | .fn p => p
  | .value v => fun a => strictEq a v

/-- helpers.js `btw`: exclusive range with auto-ordered bounds. -/
def btw (a b : Int) : Int → Bool := fun n =>
  let p := if a < b then (a, b) else (b, a)
  decide (n > p.1) && decide (n < p.2)

/-- helpers.js `btwe`: inclusive range with auto-ordered bounds. -/
def btwe (a b : Int) : Int → Bool := fun n =>
  let p := if a < b then (a, b) else (b, a)
  decide (n ≥ p.1) && decide (n ≤ p.2)

/-- helpers.js `lt`. -/
def lt (a : Int) : Int → Bool := fun n => decide (n < a)

/-- helpers.js `lte`. -/
def lte (a : Int) : Int → Bool := fun n => decide (n ≤ a)

/-- helpers.js `gt`. -/
def gt (a : Int) : Int → Bool := fun n => decide (n > a)

/-- helpers.js `gte`. -/
def gte (a : Int) : Int → Bool := fun n => decide (n ≥ a)

/-- The inner loop of helpers.js `holds`: for each array item, each not yet
satisfied slot `success[j]` is updated to `success[j] || fns[j](item)`. -/
def holdsLoop (fns : List (JSVal → Bool)) (success : List Bool) :
    List JSVal → List Bool
  | [] => success
  | item :: rest =>
    holdsLoop fns (List.zipWith (fun fn s => s || fn item) fns success) rest

/-- JavaScript `Array.prototype.reduce` with callback `(a, b) => a && b` and
no initial value: it throws a TypeError on an empty array, modelled as
`none`. -/
def jsReduceAnd : List Bool → Option Bool
  | [] => none
  | b :: rest => some (rest.foldl (fun a c => a && c) b)

/-- helpers.js `holds`: coerce every argument through `val`, scan the subject
array once marking which arguments found a matching item, then reduce the
success array with `&&` (which throws when there are no arguments). -/
def holds (args : List PredArg) : List JSVal → Option Bool := fun n =>
  let fns := args.map val
  let success := args.map (fun _ => false)
  jsReduceAnd (holdsLoop fns success n)

/-- helpers.js `or`. -/
def or (left right : PredArg) : JSVal → Bool := fun a =>
  val left a || val right a

/-- helpers.js `and`. -/
def and (left right : PredArg) : JSVal → Bool := fun a =>
  val left a && val right a

/-- helpers.js `not`. -/
def not (input : PredArg) : JSVal → Bool := fun a =>
  !val input a

/-- One element of the argument list of `obj`: either an `[key, predicate]`
array (as produced by `entry`) or a bare non-array entry, in which case the
source uses the entry itself as the key and `Boolean` as the predicate. -/
inductive ObjEntry where
  | pair (key : String) (p : JSVal → Bool)
  | bare (key : String)

/-- The key the `obj` reducer destructures from an entry. -/
def entryKey : ObjEntry → String
  | .pair k _ => k
  | .bare k => k

/-- The predicate the `obj` reducer destructures from an entry; a bare entry
gets `Boolean`, i.e. truthiness. -/
def entryPred : ObjEntry → JSVal → Bool
  | .pair _ p => p
  | .bare _ => truthy

/-- helpers.js `obj`: `entries.reduce((acc, entry) =>
acc && Boolean(a) && predicate(a[key]), true)`. -/
def obj (entries : List ObjEntry) : JSVal → Bool := fun a =>
  entries.foldl
    (fun acc e => acc && truthy a && entryPred e (getProp a (entryKey e))) true

/-- helpers.js `entry`: `[name, val(predicate)]`. -/
def entry (name : String) (predicate : PredArg) : ObjEntry :=
  .pair name (val predicate)

/-- JSON string quoting as performed by `JSON.stringify` on a string value:
wrap in double quotes, escaping backslash, double quote and the common
control characters. -/
def jsonQuote (s : String) : String :=
  "\"" ++ String.join (s.data.map (fun c =>
    if c = '"' then "\\\""
    else if c = '\\' then "\\\\"
    else if c = '\n' then "\\n"
    else if c = '\t' then "\\t"
    else if c = '\r' then "\\r"
    else String.singleton c)) ++ "\""

mutual

/-- `JSON.stringify` on the model: `undefined`, symbols and functions
serialize to no string at all (`none`), primitives to their literal form,
arrays to a bracketed comma-separated list (unserializable elements become
`null`), and objects to a braced comma-separated list of `"key":value`
fields (unserializable fields are omitted). -/
def jsonStringify : JSVal → Option String
  | vnull => some "null"
  | vundefined => none
  | vbool b => some (if b then "true" else "false")
  | vnum n => some (toString n)
  | vstr s => some (jsonQuote s)
  | vsym _ => none
  | vfn _ => none
  | varr xs => some ("[" ++ String.intercalate "," (jsonElems xs) ++ "]")
  | vobj fs =>
    some ("\x7b" ++ String.intercalate "," (jsonFields fs) ++ "\x7d")

/-- Serialized forms of the elements of an array. -/
def jsonElems : List JSVal → List String
  | [] => []
  | x :: xs => ((jsonStringify x).getD "null") :: jsonElems xs

/-- Serialized forms of the fields of an object. -/
def jsonFields : List (String × JSVal) → List String
  | [] => []
  | (k, v) :: fs =>
    match jsonStringify v with
    | none => jsonFields fs
    | some s => (jsonQuote k ++ ":" ++ s) :: jsonFields fs

end

/-- helpers.js `deep`: stringify the captured value once, compare the
stringification of the subject with it. -/
def deep (value : JSVal) : JSVal → Bool :=
  let st := jsonStringify value
  fun a => st == jsonStringify a

/-- The primitive constructors accepted by helpers.js `prim`
(Array, Boolean, Number, Symbol, BigInt, String, Function, Object),
identified by their `name` property. -/
inductive PrimType where
  | PArray
  | PBoolean
  | PNumber
  | PSymbol
  | PBigInt
  | PString
  | PFunction
  | PObject
deriving DecidableEq, Repr

/-- The `name` property of the primitive constructor. -/
def primName : PrimType → String
  | .PArray => "Array"
  | .PBoolean => "Boolean"
  | .PNumber => "Number"
  | .PSymbol => "Symbol"
  | .PBigInt => "BigInt"
  | .PString => "String"
  | .PFunction => "Function"
  | .PObject => "Object"

/-- helpers.js `prim`: the Array constructor gets a dedicated
`Array.isArray` test, every other constructor compiles to a `typeof` tag
comparison against its lowercased name. -/
def prim (primative : PrimType) : JSVal → Bool :=
  if primName primative == "Array" then fun a => isArray a
  else fun a => jsTypeof a == (primName primative).toLower

end PDSL

namespace Grammar

/-- The token kinds of the grammar table. -/
inductive TokenKind where
  | SYMBOL
  | NUMBER
  | STRING_DOUBLE
  | STRING_SINGLE
  | PREDICATE_LOOKUP
  | NOT
  | AND
  | OR
  | BTW
  | GTE
  | LTE
  | GT
  | LT
  | ENTRY
  | OBJ
  | OBJ_CLOSE
  | ARG
  | PRECEDENCE
  | PRECEDENCE_CLOSE
deriving DecidableEq, Repr

/-- The node types the grammar's constructors produce. -/
inductive NodeType where
  | SymbolLiteral
  | NumericLiteral
  | StringLiteral
  | PredicateLookup
  | Operator
  | VariableArityOperator
  | VariableArityOperatorClose
  | ArgumentSeparator
  | PrecidenceOperator
  | PrecidenceOperatorClose
deriving DecidableEq, Repr

/-- The structural fields of a grammar node: its type and, for operator
nodes, the declared arity and precedence rank.  The runtime combinators the
table attaches (`not`, `and`, `or`, `btw`, `gte`, `lte`, `gt`, `lt`,
`entry`, `obj`) live in the PDSL namespace above. -/
structure GrammarInfo where
  type : NodeType
  arity : Option Nat
  prec : Option Nat
deriving DecidableEq, Repr

/-- The grammar table: node type, arity and precedence rank per token kind,
transcribed from the parser module's `grammar` object. -/
def grammar : TokenKind → GrammarInfo
  | .SYMBOL => ⟨.SymbolLiteral, none, none⟩
  | .NUMBER => ⟨.NumericLiteral, none, none⟩
  | .STRING_DOUBLE => ⟨.StringLiteral, none, none⟩
  | .STRING_SINGLE => ⟨.StringLiteral, none, none⟩
  | .PREDICATE_LOOKUP => ⟨.PredicateLookup, none, none⟩
  | .NOT => ⟨.Operator, some 1, some 10⟩
  | .AND => ⟨.Operator, some 2, some 20⟩
  | .OR => ⟨.Operator, some 2, some 30⟩
  | .BTW => ⟨.Operator, some 2, some 50⟩
  | .GTE => ⟨.Operator, some 1, some 50⟩
  | .LTE => ⟨.Operator, some 1, some 50⟩
  | .GT => ⟨.Operator, some 1, some 50⟩
  | .LT => ⟨.Operator, some 1, some 50⟩
  | .ENTRY => ⟨.Operator, some 2, some 100⟩
  | .OBJ => ⟨.VariableArityOperator, some 0, some 100⟩
  | .OBJ_CLOSE => ⟨.VariableArityOperatorClose, none, none⟩
  | .ARG => ⟨.ArgumentSeparator, none, none⟩
  | .PRECEDENCE => ⟨.PrecidenceOperator, none, none⟩
  | .PRECEDENCE_CLOSE => ⟨.PrecidenceOperatorClose, none, none⟩

end Grammar

open PDSL JSVal Grammar

/-! Helper lemmas shared by the results about `holds` and `obj`. -/

theorem zipWith_id_of_length_eq (fns : List (JSVal → Bool)) :
    ∀ success : List Bool, fns.length = success.length →
      List.zipWith (fun _ s => s) fns success = success := by
  induction fns with
  | nil => intro success h; cases success with
    | nil => rfl
    | cons s ss => simp at h
  | cons f fs ih =>
    intro success h
    cases success with
    | nil => simp at h
    | cons s ss =>
      simp only [List.zipWith_cons_cons, List.cons.injEq, true_and]
      exact ih ss (by simpa using h)

theorem zipWith_zipWith_left (f g : (JSVal → Bool) → Bool → Bool) :
    ∀ (fns : List (JSVal → Bool)) (s : List Bool),
      List.zipWith f fns (List.zipWith g fns s) =
        List.zipWith (fun a b => f a (g a b)) fns s := by
  intro fns
  induction fns with
  | nil => intro s; rfl
  | cons x xs ih =>
    intro s
    cases s with
    | nil => rfl
    | cons b bs => simp only [List.zipWith_cons_cons, ih]

theorem holdsLoop_spec (n : List JSVal) :
    ∀ (fns : List (JSVal → Bool)) (success : List Bool),
      fns.length = success.length →
      holdsLoop fns success n =
        List.zipWith (fun fn s => s || n.any fn) fns success := by
  induction n with
  | nil =>
    intro fns success h
    simp only [holdsLoop, List.any_nil, Bool.or_false]
    exact (zipWith_id_of_length_eq fns success h).symm
  | cons item rest ih =>
    intro fns success h
    rw [holdsLoop, ih _ _ (by simp [h]), zipWith_zipWith_left]
    simp only [List.any_cons, Bool.or_assoc]

theorem foldl_and_id (l : List Bool) :
    ∀ b : Bool, l.foldl (fun a c => a && c) b = (b && l.all id) := by
  induction l with
  | nil => intro b; simp
  | cons x xs ih =>
    intro b
    simp only [List.foldl_cons, ih, List.all_cons, id, Bool.and_assoc]

theorem all_map_id {α : Type} (f : α → Bool) (l : List α) :
    (l.map f).all id = l.all f := by
  induction l with
  | nil => rfl
  | cons x xs ih => simp only [List.map_cons, List.all_cons, ih, id]

theorem holds_eq_all (args : List PredArg) (n : List JSVal) (h : args ≠ []) :
    holds args n = some (args.all (fun arg => n.any (val arg))) := by
  show jsReduceAnd (holdsLoop (args.map val) (args.map (fun _ => false)) n) =
    some (args.all (fun arg => n.any (val arg)))
  rw [holdsLoop_spec n _ _ (by simp), List.zipWith_map, List.zipWith_same]
  simp only [Bool.false_or]
  cases args with
  | nil => exact absurd rfl h
  | cons a as =>
    simp only [List.map_cons, jsReduceAnd, foldl_and_id, List.all_cons,
      all_map_id, Option.some.injEq]

theorem foldl_and_pred {α : Type} (p : α → Bool) (l : List α) :
    ∀ acc : Bool, l.foldl (fun acc e => acc && p e) acc = (acc && l.all p) := by
  induction l with
  | nil => intro acc; simp
  | cons x xs ih =>
    intro acc
    simp only [List.foldl_cons, ih, List.all_cons, Bool.and_assoc]

theorem obj_eq_all (entries : List ObjEntry) (a : JSVal) :
    obj entries a =
      entries.all (fun e => truthy a && entryPred e (getProp a (entryKey e))) := by
  unfold obj
  simp only [Bool.and_assoc]
  rw [foldl_and_pred (fun e => truthy a && entryPred e (getProp a (entryKey e)))
    entries true, Bool.true_and]

/-! Results for the claims. -/

/-- C1 counterexample: `holds` applied to zero arguments and then to a
subject does not return a boolean — the final `success.reduce((a, b) =>
a && b)` runs on an empty array with no initial value and throws a
TypeError (modelled as `none`). -/
theorem holds_no_args_throws : holds [] [vnum 0] = none := rfl

/-- C1 (amended): `holds` applied to at least one argument and then to any
array subject returns a boolean and never throws. -/
theorem holds_nonempty_returns_boolean (args : List PredArg) (n : List JSVal)
    (h : args ≠ []) : (holds args n).isSome = true := by
  rw [holds_eq_all args n h]
  rfl

/-- C1 witness: the amended statement at one argument and one subject. -/
theorem holds_nonempty_returns_boolean_witness :
    (holds [PredArg.value (vnum 1)] [vnum 1]).isSome = true :=
  holds_nonempty_returns_boolean _ _ (by simp)

/-- C2 counterexample: with an empty entry list, `obj()` applied to the
absent subject `null` returns `true` (the reduce starts from `true` and has
nothing to fold), contradicting "the predicate is false whenever the subject
is absent". -/
theorem obj_empty_true_on_null : obj [] vnull = true := rfl

/-- C2 (amended): for every NON-EMPTY list of entries, `obj(...entries)` is
true exactly when the subject is truthy (hence non-absent) and every declared
key's predicate accepts the subject's value at that key, and it is false
whenever the subject is absent; with an empty entry list the predicate is
constantly true. -/
theorem obj_requires_truthy_subject (entries : List ObjEntry) (a : JSVal)
    (h : entries ≠ []) :
    (obj entries a = true ↔
      truthy a = true ∧
        ∀ e ∈ entries, entryPred e (getProp a (entryKey e)) = true)
    ∧ ((a = vnull ∨ a = vundefined) → obj entries a = false) := by
  rw [obj_eq_all]
  constructor
  · cases entries with
    | nil => exact absurd rfl h
    | cons e es =>
      simp only [List.all_eq_true, Bool.and_eq_true]
      constructor
      · intro H
        exact ⟨(H e (List.mem_cons_self e es)).1, fun x hx => (H x hx).2⟩
      · intro H x hx
        exact ⟨H.1, H.2 x hx⟩
  · intro ha
    have ht : truthy a = false := by rcases ha with rfl | rfl <;> rfl
    rw [ht]
    cases entries with
    | nil => exact absurd rfl h
    | cons e es => simp

/-- C2 witness: the amended statement at one entry and a truthy object
subject whose declared key passes. -/
theorem obj_requires_truthy_subject_witness :
    obj [ObjEntry.pair "k" truthy] (vobj [("k", vnum 1)]) = true :=
  (obj_requires_truthy_subject [ObjEntry.pair "k" truthy]
    (vobj [("k", vnum 1)]) (by simp)).1.mpr
    (by
      refine ⟨rfl, ?_⟩
      intro e he
      rw [List.mem_singleton] at he
      subst he
      rfl)

/-- C3 confirmed: for a non-empty argument list, `holds(...args)(subject)` is
true exactly when every argument (coerced through `val`) is satisfied by at
least one element of the subject array — existential per argument,
conjunctive across arguments, with no length relationship assumed between
the two lists. -/
theorem holds_existential_per_arg (args : List PredArg) (n : List JSVal)
    (h : args ≠ []) :
    (holds args n = some true ↔
      ∀ arg ∈ args, ∃ item ∈ n, val arg item = true) := by
  rw [holds_eq_all args n h]
  simp only [Option.some.injEq, List.all_eq_true, List.any_eq_true]

/-- C3 witness: one value argument matched by the second element of the
subject array. -/
theorem holds_existential_per_arg_witness :
    holds [PredArg.value (vnum 2)] [vnum 1, vnum 2] = some true :=
  (holds_existential_per_arg _ _ (by simp)).mpr
    (by
      intro arg harg
      rw [List.mem_singleton] at harg
      subst harg
      exact ⟨vnum 2, by simp, rfl⟩)

/-- C4 confirmed: `btw` is order-independent in its two bounds, and accepts
exactly the numbers strictly between the smaller and the larger bound. -/
theorem btw_order_independent (a b n : Int) :
    btw a b n = btw b a n
    ∧ (btw a b n = true ↔ min a b < n ∧ n < max a b) := by
  unfold PDSL.btw
  rcases lt_trichotomy a b with hab | rfl | hab
  · rw [if_pos hab, if_neg (not_lt.mpr hab.le), min_eq_left hab.le,
      max_eq_right hab.le]
    simp [decide_eq_true_eq, and_comm]
  · simp
  · rw [if_neg (not_lt.mpr hab.le), if_pos hab, min_eq_right hab.le,
      max_eq_left hab.le]
    simp [decide_eq_true_eq, and_comm]

/-- C5 confirmed: for every non-function scalar value (numbers, booleans,
the two absence sentinels, unique symbols), `val(v)` accepts a subject
exactly when it is strictly equal to `v`; in particular the predicate built
from `null` rejects `undefined` and vice versa. -/
theorem val_strict_identity (v a : JSVal) (h : isScalar v = true) :
    (val (PredArg.value v) a = true ↔ a = v)
    ∧ val (PredArg.value vnull) vundefined = false
    ∧ val (PredArg.value vundefined) vnull = false := by
  refine ⟨?_, rfl, rfl⟩
  show strictEq a v = true ↔ a = v
  cases v with
  | vnull => cases a <;> simp [strictEq]
  | vundefined => cases a <;> simp [strictEq]
  | vbool b => cases a <;> simp [strictEq]
  | vnum m => cases a <;> simp [strictEq]
  | vsym i => cases a <;> simp [strictEq]
  | vstr s => simp [isScalar] at h
  | vfn i => simp [isScalar] at h
  | varr l => simp [isScalar] at h
  | vobj l => simp [isScalar] at h

/-- C5 witness: the number 0 is accepted by the predicate built from 0. -/
theorem val_strict_identity_witness :
    val (PredArg.value (vnum 0)) (vnum 0) = true :=
  (val_strict_identity (vnum 0) (vnum 0) rfl).1.mpr rfl

/-- C6 confirmed: the Array descriptor's predicate is the dedicated
`Array.isArray` check — true on every list, false on structured objects and
numbers — while every other descriptor's predicate compares the subject's
`typeof` tag with the descriptor's lowercased name. -/
theorem prim_array_is_list_check :
    (∀ a, prim PrimType.PArray a = isArray a)
    ∧ prim PrimType.PArray (varr []) = true
    ∧ prim PrimType.PArray (vobj []) = false
    ∧ prim PrimType.PArray (vnum 3) = false
    ∧ (∀ d, d ≠ PrimType.PArray →
        ∀ a, prim d a = (jsTypeof a == (primName d).toLower)) := by
  refine ⟨fun a => rfl, by decide, by decide, by decide, ?_⟩
  intro d hd a
  cases d
  · exact absurd rfl hd
  all_goals rfl

/-- C6 witness: the String descriptor at a number subject follows the
generic lowercased type-tag comparison. -/
theorem prim_array_is_list_check_witness :
    prim PrimType.PString (vnum 3) =
      (jsTypeof (vnum 3) == (primName PrimType.PString).toLower) :=
  prim_array_is_list_check.2.2.2.2 PrimType.PString (by decide) (vnum 3)

/-- C7 confirmed: `deep` compares the canonical JSON serializations of the
captured value and the subject; in particular the predicates built from
an empty object, an empty array and the empty string distinguish all three
shapes exactly as the claim lists. -/
theorem deep_structural_equality :
    deep (vobj []) (vobj []) = true
    ∧ deep (vobj []) (varr []) = false
    ∧ deep (varr []) (varr []) = true
    ∧ deep (varr []) (vobj []) = false
    ∧ deep (vstr "") (vstr "") = true
    ∧ deep (vstr "") (varr []) = false
    ∧ (∀ value a, deep value a = true ↔
        jsonStringify value = jsonStringify a) := by
  refine ⟨by decide, by decide, by decide, by decide, by decide, by decide,
    ?_⟩
  intro value a
  show (jsonStringify value == jsonStringify a) = true ↔ _
  exact beq_iff_eq

/-- C8 confirmed: in the grammar table the entry token's precedence rank
(100) strictly exceeds the rank of negation (10), conjunction (20),
disjunction (30), between (50) and each comparison operator (50). -/
theorem entry_precedence_highest :
    (grammar TokenKind.ENTRY).prec = some 100
    ∧ (grammar TokenKind.NOT).prec = some 10
    ∧ (grammar TokenKind.AND).prec = some 20
    ∧ (grammar TokenKind.OR).prec = some 30
    ∧ (grammar TokenKind.BTW).prec = some 50
    ∧ (grammar TokenKind.GT).prec = some 50
    ∧ (grammar TokenKind.GTE).prec = some 50
    ∧ (grammar TokenKind.LT).prec = some 50
    ∧ (grammar TokenKind.LTE).prec = some 50
    ∧ (grammar TokenKind.NOT).prec.getD 100 <
        (grammar TokenKind.ENTRY).prec.getD 0
    ∧ (grammar TokenKind.AND).prec.getD 100 <
        (grammar TokenKind.ENTRY).prec.getD 0
    ∧ (grammar TokenKind.OR).prec.getD 100 <
        (grammar TokenKind.ENTRY).prec.getD 0
    ∧ (grammar TokenKind.BTW).prec.getD 100 <
        (grammar TokenKind.ENTRY).prec.getD 0
    ∧ (grammar TokenKind.GT).prec.getD 100 <
        (grammar TokenKind.ENTRY).prec.getD 0
    ∧ (grammar TokenKind.GTE).prec.getD 100 <
        (grammar TokenKind.ENTRY).prec.getD 0
    ∧ (grammar TokenKind.LT).prec.getD 100 <
        (grammar TokenKind.ENTRY).prec.getD 0
    ∧ (grammar TokenKind.LTE).prec.getD 100 <
        (grammar TokenKind.ENTRY).prec.getD 0 := by
  decide

/-- C9 confirmed: `not`, `and`, `or` and `entry` coerce a non-function
argument through `val` into a strict-equality test before applying it, so
for example `and(v, p)(a)` is `(a === v) && p(a)`. -/
theorem combinators_coerce_non_function_args
    (v : JSVal) (p : JSVal → Bool) (a : JSVal) (k : String) :
    PDSL.and (PredArg.value v) (PredArg.fn p) a = (strictEq a v && p a)
    ∧ PDSL.and (PredArg.fn p) (PredArg.value v) a = (p a && strictEq a v)
    ∧ PDSL.or (PredArg.value v) (PredArg.fn p) a = (strictEq a v || p a)
    ∧ PDSL.not (PredArg.value v) a = !strictEq a v
    ∧ entryPred (entry k (PredArg.value v)) a = strictEq a v
    ∧ entryKey (entry k (PredArg.value v)) = k :=
  ⟨rfl, rfl, rfl, rfl, rfl, rfl⟩

/-- C10 confirmed: a between-range whose two bounds coincide accepts no
number, including the bound itself. -/
theorem btw_equal_bounds_rejects (a n : Int) : btw a a n = false := by
  unfold PDSL.btw
  simp only [lt_self_iff_false, if_false]
  simp only [Bool.and_eq_false_iff, decide_eq_false_iff_not, not_lt]
  omega
